import Mathlib

/-!
Shallow embedding of the foxyapply application-wizard automation engine
(package browser and package store), together with theorems checking the
natural-language specification against it.

The embedding covers:
- ExtractJobID and its URL-path preprocessing;
- ChooseValue, the field value resolver, over the LinkedInProfile record;
- FillOutEasyApplyForm, the bounded wizard loop, over an abstract step
  environment (page state, locator presence, inline-error marker, click
  effects), instrumented with an event trace;
- the loop-carried state of the StartApplying campaign loop.

Go machine integers are modelled as Int with explicit int64 range checks
where the source checks overflow; fallible or panicking code returns
Option (none marks a runtime panic).
-/

namespace FoxyApply

/-! ### Models of the Go string primitives used by the source -/

/-- Whitespace recognised by the model of Go strings.TrimSpace
(the ASCII part of unicode.IsSpace; the labels and answers handled by the
source are ASCII). -/
def goIsSpace (c : Char) : Bool :=
  c = ' ' || c = '\t' || c = '\n' || c = '\x0b' || c = '\x0c' || c = '\r'

/-- Drop leading characters satisfying p. -/
def dropLeading (p : Char → Bool) : List Char → List Char
  | [] => []
  | c :: cs => if p c then dropLeading p cs else c :: cs

/-- Model of Go strings.TrimSpace: remove leading and trailing whitespace. -/
def trimSpace (s : String) : String :=
  ⟨(dropLeading goIsSpace ((dropLeading goIsSpace s.data).reverse)).reverse⟩

/-- ASCII lower-casing of one character (model of strings.ToLower on the
ASCII inputs the source deals with). -/
def goToLowerChar (c : Char) : Char :=
  if 'A' ≤ c && c ≤ 'Z' then Char.ofNat (c.toNat + 32) else c

/-- Model of Go strings.ToLower. -/
def goToLower (s : String) : String :=
  ⟨s.data.map goToLowerChar⟩

/-- Whether the first list is a prefix of the second. -/
def isPrefixL : List Char → List Char → Bool
  | [], _ => true
  | _ :: _, [] => false
  | a :: as, b :: bs => a == b && isPrefixL as bs

/-- Whether needle occurs as a contiguous sublist of the haystack. -/
def hasSubstrL (needle : List Char) : List Char → Bool
  | [] => isPrefixL needle []
  | c :: t => isPrefixL needle (c :: t) || hasSubstrL needle t

/-- Model of Go strings.Contains s sub. -/
def strContains (s sub : String) : Bool :=
  hasSubstrL sub.data s.data

/-- Model of the variadic containsAny helper of the source: whether s
contains any of the keywords. -/
def containsAny (s : String) (kws : List String) : Bool :=
  kws.any (fun kw => strContains s kw)

/-- Decimal digit test. -/
def isDigit (c : Char) : Bool :=
  '0' ≤ c && c ≤ '9'

/-- Value of a digit string, most significant digit first. -/
def digitsVal (cs : List Char) : Nat :=
  cs.foldl (fun acc c => acc * 10 + (c.toNat - 48)) 0

/-- Largest value of the Go type int (64-bit). -/
def int64Max : Int := 9223372036854775807

/-- Smallest value of the Go type int (64-bit). -/
def int64Min : Int := -9223372036854775808

/-- Model of Go strconv.Atoi on a 64-bit platform: optional sign, one or
more decimal digits, nothing else; values outside the int64 range are an
error. none models a non-nil error. -/
def atoi (s : String) : Option Int :=
  let cs := s.data
  let signed : Bool × List Char :=
    match cs with
    | '+' :: rest => (false, rest)
    | '-' :: rest => (true, rest)
    | _ => (false, cs)
  let neg := signed.1
  let digits := signed.2
  if digits.isEmpty then none
  else if !digits.all isDigit then none
  else
    let v : Int := (digitsVal digits : Nat)
    let n := if neg then -v else v
    if n < int64Min || int64Max < n then none else some n

/-- Drop leading occurrences of one character. -/
def trimCharLeading (c : Char) : List Char → List Char
  | [] => []
  | x :: xs => if x == c then trimCharLeading c xs else x :: xs

/-- Model of Go strings.Trim s "/" : remove leading and trailing slashes. -/
def goTrimSlash (s : String) : String :=
  ⟨(trimCharLeading '/' ((trimCharLeading '/' s.data).reverse)).reverse⟩

/-- Splitting helper for goSplitSlash: acc holds the current segment
reversed. -/
def splitCharAux (c : Char) : List Char → List Char → List String
  | [], acc => [⟨acc.reverse⟩]
  | x :: xs, acc =>
    if x == c then ⟨acc.reverse⟩ :: splitCharAux c xs []
    else splitCharAux c xs (x :: acc)

/-- Model of Go strings.Split s "/" (single-character separator): the empty
string splits to one empty segment, matching Go. -/
def goSplitSlash (s : String) : List String :=
  splitCharAux '/' s.data []

/-! ### Model of net/url.Parse restricted to the Path field -/

/-- Characters before the first one satisfying p. -/
def takeUntil (p : Char → Bool) : List Char → List Char
  | [] => []
  | c :: cs => if p c then [] else c :: takeUntil p cs

/-- The suffix starting at the first character satisfying p (empty if
none). -/
def dropUntil (p : Char → Bool) : List Char → List Char
  | [] => []
  | c :: cs => if p c then c :: cs else dropUntil p cs

/-- ASCII letter test. -/
def isAlpha (c : Char) : Bool :=
  ('a' ≤ c && c ≤ 'z') || ('A' ≤ c && c ≤ 'Z')

/-- Outcome of scheme detection in the URL parser model. -/
inductive SchemeRes
  | err
  | found (rest : List Char)
  | noScheme
deriving DecidableEq, Repr

/-- Model of the scheme scan of net/url.Parse: a scheme is letters,
digits, plus, minus or dot up to a colon, starting with a letter; a
leading colon is a parse error; anything else means the input is a
relative reference. -/
def getSchemeAux : Bool → List Char → SchemeRes
  | _, [] => .noScheme
  | first, c :: rest =>
    if isAlpha c then getSchemeAux false rest
    else if c = ':' then (if first then .err else .found rest)
    else if isDigit c || c = '+' || c = '-' || c = '.' then
      (if first then .noScheme else getSchemeAux false rest)
    else .noScheme

/-- Modelled from the Go standard library net/url.Parse, restricted to
computing the Path field of the result: the fragment is cut at the first
hash, a scheme and a double-slash authority are stripped, the query is cut
at the first question mark. ASCII control characters are a parse error, as
is a colon in the first segment of a schemeless relative path.
Percent-escape decoding and host validation are omitted: the posting-link
hrefs this program feeds in contain no escapes. none models a non-nil
error from url.Parse. -/
def parseURLPath (href : String) : Option String :=
  let cs := href.data
  if cs.any (fun c => c.toNat < 32 || c.toNat = 127) then none
  else
    let noFrag := takeUntil (fun c => c = '#') cs
    match getSchemeAux true noFrag with
    | .err => none
    | .found rest =>
      match rest with
      | '/' :: '/' :: rest2 =>
        let afterAuth := dropUntil (fun c => c = '/' || c = '?') rest2
        some ⟨takeUntil (fun c => c = '?') afterAuth⟩
      | '/' :: more => some ⟨takeUntil (fun c => c = '?') ('/' :: more)⟩
      | _ => some ""
    | .noScheme =>
      match noFrag with
      | '/' :: '/' :: rest2 =>
        let afterAuth := dropUntil (fun c => c = '/' || c = '?') rest2
        some ⟨takeUntil (fun c => c = '?') afterAuth⟩
      | _ =>
        if (takeUntil (fun c => c = '/') noFrag).contains ':' then none
        else some ⟨takeUntil (fun c => c = '?') noFrag⟩

/-! ### ExtractJobID -/

/-- The segment-indexing part of ExtractJobID (source lines 15 to 27):
trim slashes, split on slash, reject fewer than 2 segments, then read
segments[2]. Reading index 2 of a 2-element list is a Go index-out-of-range
panic, modelled as none. -/
def extractJobIDFromPath (path : String) : Option (Int × Bool) :=
  let segments := goSplitSlash (goTrimSlash path)
  if segments.length < 2 then some (0, false)
  else
    match segments.get? 2 with
    | none => none
    | some jobIDStr =>
      match atoi jobIDStr with
      | none => some (0, false)
      | some jobID => some (jobID, true)

/-- ExtractJobID (source lines 9 to 28): parse the href, on parse error
return (0, false), otherwise extract from the path. none models a runtime
panic. -/
def ExtractJobID (href : String) : Option (Int × Bool) :=
  match parseURLPath href with
  | none => some (0, false)
  | some p => extractJobIDFromPath p

/-! ### Model of strconv.Itoa -/

/-- Decimal digits of n, most significant first, accumulator style; fuel
bounds the recursion (fuel at least one suffices since n shrinks by a
factor of 10). -/
def natToDigitsAux : Nat → Nat → List Char → List Char
  | 0, _, acc => acc
  | fuel + 1, n, acc =>
    if n < 10 then Char.ofNat (48 + n % 10) :: acc
    else natToDigitsAux fuel (n / 10) (Char.ofNat (48 + n % 10) :: acc)

/-- Decimal representation of a natural number. -/
def itoaNat (n : Nat) : String :=
  ⟨natToDigitsAux (n + 1) n []⟩

/-- Model of Go strconv.Itoa: decimal representation with a leading minus
sign for negative values. -/
def itoa : Int → String
  | .ofNat n => itoaNat n
  | .negSucc m => "-" ++ itoaNat (m + 1)

/-! ### LinkedInProfile and ChooseValue -/

/-- The profile fields read by the core (store.LinkedInProfile,
src/internal/store/linkedin-profiles.go). Go int is modelled as Int. -/
structure LinkedInProfile where
  PhoneNumber : String
  Positions : List String
  Locations : List String
  RemoteOnly : Bool
  ProfileURL : String
  YearsExperience : Int
  UserCity : String
  UserState : String
  DesiredSalary : Int
deriving DecidableEq, Repr

/-- The injected fallback resolver: Go func(label, typ string) (string,
error), with none modelling a non-nil error; a nil Go function value is
modelled by Option.none at the outer level of ChooseValue. -/
def LLMFallback : Type := String → String → Option String

/-- ChooseValue (source lines 538 to 582): keyword cascade over the
lower-cased trimmed label, then the numeric-type default, then the
fallback resolver, then years of experience. -/
def ChooseValue (labelText inputType : String) (p : LinkedInProfile)
    (llmFallback : Option LLMFallback) : String :=
  let l := goToLower (trimSpace labelText)
  let t := goToLower (trimSpace inputType)
  if containsAny l ["phone", "mobile", "telephone", "contact"] then p.PhoneNumber
  else if containsAny l ["city", "location", "reside"] then
    p.UserCity ++ ", " ++ p.UserState
  else if strContains l "have you ever worked" then "No"
  else if strContains l "state" then p.UserState
  else if containsAny l ["salary", "wage", "income", "compensation"] then
    itoa p.DesiredSalary
  else if strContains l "experience" && strContains l "year" then
    itoa p.YearsExperience
  else if containsAny l ["linkedin", "linked-in", "linked in"] then p.ProfileURL
  else if t == "number" then itoa p.YearsExperience
  else
    match llmFallback with
    | some fb =>
      match fb labelText inputType with
      | some ans =>
        if trimSpace ans ≠ "" then trimSpace ans else itoa p.YearsExperience
      | none => itoa p.YearsExperience
    | none => itoa p.YearsExperience

/-- First answer of a rule list whose guard holds. -/
def firstMatch : List (Bool × String) → Option String
  | [] => none
  | r :: rest => if r.1 then some r.2 else firstMatch rest

/-- Modelled from the spec: the 10-rule priority cascade of section 4.2
(Field Value Resolver), written as an ordered rule table with first match
winning and case-insensitive substring matching against the label; rules 8
to 10 are the numeric-type default, the fallback resolver, and the final
years-of-experience default. -/
def resolveSpec (labelText inputType : String) (p : LinkedInProfile)
    (fallback : Option LLMFallback) : String :=
  let l := goToLower (trimSpace labelText)
  let rules : List (Bool × String) :=
    [(containsAny l ["phone", "mobile", "telephone", "contact"], p.PhoneNumber),
     (containsAny l ["city", "location", "reside"], p.UserCity ++ ", " ++ p.UserState),
     (strContains l "have you ever worked", "No"),
     (strContains l "state", p.UserState),
     (containsAny l ["salary", "wage", "income", "compensation"], itoa p.DesiredSalary),
     (strContains l "experience" && strContains l "year", itoa p.YearsExperience),
     (containsAny l ["linkedin", "linked-in", "linked in"], p.ProfileURL)]
  match firstMatch rules with
  | some ans => ans
  | none =>
    if goToLower (trimSpace inputType) == "number" then itoa p.YearsExperience
    else
      match fallback with
      | some fb =>
        match fb labelText inputType with
        | some ans =>
          if trimSpace ans ≠ "" then trimSpace ans else itoa p.YearsExperience
        | none => itoa p.YearsExperience
      | none => itoa p.YearsExperience

/-! ### The wizard loop (FillOutEasyApplyForm) over an abstract step
environment -/

/-- The four wizard action locators, in the priority order of the buttons
slice of the source: index 0 advance to next step, 1 review, 2 follow
company, 3 submit. -/
inductive WizardButton
  | next
  | review
  | follow
  | submit
deriving DecidableEq, Repr

/-- The priority-ordered action list of the source. -/
def wizardButtons : List WizardButton :=
  [.next, .review, .follow, .submit]

/-- Abstract step environment: the page state and the oracles the loop
consumes. isPresent models the isPresent closure (main document within its
timeout, or any iframe); errorShowing models presence of the inline error
marker (the hasErrors closure); fixErrors models the body of
handleInlineErrors once the marker was found (the FillInvalids pass over
the iframes); click models clickWhenClickable, returning the new page
state and whether it returned a nil error. -/
structure StepEnv (σ : Type) where
  isPresent : σ → WizardButton → Bool
  errorShowing : σ → Bool
  fixErrors : σ → σ
  click : σ → WizardButton → σ × Bool

/-- handleInlineErrors (source lines 340 to 363): return immediately when
the error marker is absent, otherwise run the filling pass. -/
def handleInline {σ : Type} (env : StepEnv σ) (s : σ) : σ :=
  if env.errorShowing s then env.fixErrors s else s

/-- Events of the instrumented loop: an error-handling pass starting at a
given page state, or a click attempt on a button at a given page state. -/
inductive WizardEvent (σ : Type)
  | errorPass (s : σ)
  | attempt (s : σ) (b : WizardButton)
deriving DecidableEq, Repr

/-- The inner scan over the priority-ordered button list (the j loop of
the source, lines 400 to 413): for each button, if it is present and no
inline error is showing, attempt the click; a successful submit click
yields submitted and breaks, a successful advance click breaks, everything
else falls through to another error-handling pass and the next button.
Returns the final page state, the submitted flag and the event trace. -/
def innerScan {σ : Type} (env : StepEnv σ) :
    List WizardButton → σ → σ × Bool × List (WizardEvent σ)
  | [], s => (s, false, [])
  | b :: rest, s =>
    if env.isPresent s b && !env.errorShowing s then
      let r := env.click s b
      if r.2 = true ∧ b = WizardButton.submit then
        (r.1, true, [WizardEvent.attempt s b])
      else if r.2 = true ∧ b = WizardButton.next then
        (r.1, false, [WizardEvent.attempt s b])
      else
        let t := innerScan env rest (handleInline env r.1)
        (t.1, t.2.1, WizardEvent.attempt s b :: WizardEvent.errorPass r.1 :: t.2.2)
    else
      let t := innerScan env rest (handleInline env s)
      (t.1, t.2.1, WizardEvent.errorPass s :: t.2.2)

/-- The outer iteration loop (for i lower than 15 while not submitted,
source lines 398 to 414): each iteration runs handleInlineErrors first,
then the inner scan. Returns the final page state, the submitted flag, the
number of outer iterations executed, and one event trace per iteration. -/
def wizardLoop {σ : Type} (env : StepEnv σ) :
    Nat → σ → σ × Bool × Nat × List (List (WizardEvent σ))
  | 0, s => (s, false, 0, [])
  | fuel + 1, s =>
    let s1 := handleInline env s
    let t := innerScan env wizardButtons s1
    let trace := WizardEvent.errorPass s :: t.2.2
    if t.2.1 then (t.1, true, 1, [trace])
    else
      let u := wizardLoop env fuel t.1
      (u.1, u.2.1, u.2.2.1 + 1, trace :: u.2.2.2)

/-- FillOutEasyApplyForm (source lines 285 to 417): run the wizard loop
with the iteration budget 15 and return the submitted flag together with
the error value, which is always nil in the source (the randomized sleeps
are timing only and carry no state). -/
def FillOutEasyApplyForm {σ : Type} (env : StepEnv σ) (s : σ) :
    Bool × Option String :=
  ((wizardLoop env 15 s).2.1, none)

/-- Number of outer iterations FillOutEasyApplyForm executes. -/
def wizardIterations {σ : Type} (env : StepEnv σ) (s : σ) : Nat :=
  (wizardLoop env 15 s).2.2.1

/-- The per-iteration event traces of FillOutEasyApplyForm. -/
def wizardTraces {σ : Type} (env : StepEnv σ) (s : σ) :
    List (List (WizardEvent σ)) :=
  (wizardLoop env 15 s).2.2.2

/-! ### The campaign loop state (StartApplying) -/

/-- The loop-carried variables of the StartApplying campaign loop (source
lines 184 to 234): jobsPerPage is the value interpolated as the start
parameter of the search URL, IDs the accumulated job identifiers. -/
structure CampaignState where
  jobsPerPage : Nat
  IDs : List Int
deriving DecidableEq, Repr

/-- The identifier-collection pass of one iteration (source lines 204 to
215): for each discovered href in order, extract the job identifier;
ok false is logged and skipped, a panic inside ExtractJobID aborts the
run (none). -/
def collectIDs : List String → List Int → Option (List Int)
  | [], acc => some acc
  | h :: rest, acc =>
    match ExtractJobID h with
    | none => none
    | some (id, true) => collectIDs rest (acc ++ [id])
    | some (_, false) => collectIDs rest acc

/-- One iteration of the campaign loop as it affects the loop-carried
state: hrefs are the posting links discovered on this pass; the loop body
contains no assignment to jobsPerPage, so it is carried unchanged. -/
def startApplyingStep (hrefs : List String) (st : CampaignState) :
    Option CampaignState :=
  (collectIDs hrefs st.IDs).map fun ids =>
    { jobsPerPage := st.jobsPerPage, IDs := ids }

/-- The campaign state at the start of iteration n, for an environment
giving the hrefs discovered on each earlier iteration; jobsPerPage is
initialized to 0 before the loop. -/
def campaignState (env : Nat → List String) : Nat → Option CampaignState
  | 0 => some { jobsPerPage := 0, IDs := [] }
  | n + 1 => (campaignState env n).bind (startApplyingStep (env n))

/-- The result-page offset (the start parameter of the search URL) used by
the discovery call of iteration n. -/
def campaignOffset (env : Nat → List String) (n : Nat) : Option Nat :=
  (campaignState env n).map CampaignState.jobsPerPage

/-! ### Concrete instances used by the witnesses -/

/-- A fully populated applicant profile. -/
def wProf : LinkedInProfile :=
  ⟨"555-0100", ["Engineer"], ["Remote"], false, "https://linkedin.com/in/x",
    7, "Austin", "TX", 120000⟩

/-- A profile whose string fields are all empty. -/
def phonelessProfile : LinkedInProfile :=
  ⟨"", [], [], false, "", 0, "", "", 0⟩

/-- A step environment in which no locator is ever present, no error ever
shows, and every click fails. -/
def trivEnv : StepEnv Unit :=
  ⟨fun _ _ => false, fun _ => false, id, fun s _ => (s, false)⟩

/-- A step environment over four page states in which the advance button
is actionable in state 0, the review button in state 1 and the submit
button in state 2, every click succeeds and advances the state, and no
inline error ever shows. -/
def demoEnv : StepEnv (Fin 4) where
  isPresent := fun s b =>
    (s.val == 0 && b == WizardButton.next) ||
    (s.val == 1 && b == WizardButton.review) ||
    (s.val == 2 && b == WizardButton.submit)
  errorShowing := fun _ => false
  fixErrors := id
  click := fun s _ => (if h : s.val + 1 < 4 then ⟨s.val + 1, h⟩ else s, true)

/-! ### Supporting lemmas -/

lemma string_mk_ne_empty (l : List Char) (h : l ≠ []) : (⟨l⟩ : String) ≠ "" :=
  fun he => h (congrArg String.data he)

lemma natToDigitsAux_le_length :
    ∀ (fuel n : Nat) (acc : List Char),
      acc.length ≤ (natToDigitsAux fuel n acc).length := by
  intro fuel
  induction fuel with
  | zero => intro n acc; simp [natToDigitsAux]
  | succ f ih =>
    intro n acc
    simp only [natToDigitsAux]
    split
    · simp
    · calc acc.length ≤ (Char.ofNat (48 + n % 10) :: acc).length := by simp
        _ ≤ _ := ih _ _

lemma natToDigitsAux_ne_nil (fuel n : Nat) (acc : List Char) :
    natToDigitsAux (fuel + 1) n acc ≠ [] := by
  simp only [natToDigitsAux]
  split
  · simp
  · intro h
    have h2 := natToDigitsAux_le_length fuel (n / 10) (Char.ofNat (48 + n % 10) :: acc)
    rw [h] at h2
    simp at h2

lemma itoaNat_ne_empty (n : Nat) : itoaNat n ≠ "" :=
  string_mk_ne_empty _ (natToDigitsAux_ne_nil n n [])

lemma itoa_ne_empty (k : Int) : itoa k ≠ "" := by
  cases k with
  | ofNat n => exact itoaNat_ne_empty n
  | negSucc m =>
    show "-" ++ itoaNat (m + 1) ≠ ""
    intro h
    have h2 := congrArg String.data h
    rw [String.data_append] at h2
    simp at h2

lemma append_comma_ne_empty (a b : String) : a ++ ", " ++ b ≠ "" := by
  intro h
  have h2 := congrArg String.data h
  rw [String.data_append, String.data_append] at h2
  simp at h2

/-! ### Theorems for the claims -/

/-- Claim C1: on a well-formed posting link with three path segments whose
third is a base-10 integer, ExtractJobID returns that integer with ok
true; but on the href whose path is /jobs/search/ (exactly two segments)
the source does not return (0, false) as the spec states: the guard tests
len(segments) less than 2 while index 2 is read, so the read is out of
bounds and the function panics (modelled as none). -/
theorem extractJobID_c1_eval :
    ExtractJobID "https://www.linkedin.com/jobs/view/3847562910/" =
      some (3847562910, true) ∧
    ExtractJobID "https://www.linkedin.com/jobs/search/" = none := by
  constructor
  · decide
  · decide

/-- Claim C2: ExtractJobID is not total: for an href with exactly two
non-empty path segments the access of segments[2] is out of bounds and the
function panics (none); with fewer than two segments it does return
(0, false). -/
theorem extractJobID_c2_eval :
    ExtractJobID "/jobs/search/" = none ∧
    ExtractJobID "/jobs/" = some (0, false) ∧
    ExtractJobID "" = some (0, false) := by
  refine ⟨by decide, by decide, by decide⟩

/-- Claim C10: the result of ExtractJobID depends only on the path
component produced by URL parsing; two hrefs that parse to the same path
give the same result, whatever their scheme, host, query or fragment. -/
theorem extractJobID_path_only (h1 h2 p1 p2 : String)
    (e1 : parseURLPath h1 = some p1) (e2 : parseURLPath h2 = some p2)
    (hp : p1 = p2) : ExtractJobID h1 = ExtractJobID h2 := by
  unfold ExtractJobID
  rw [e1, e2, hp]

/-- Witness for C10: a full posting URL with query and a bare path with
fragment share the path /jobs/view/5 and get the same extraction result. -/
theorem extractJobID_path_only_witness :
    parseURLPath "https://www.linkedin.com/jobs/view/5?refId=abc" =
      some "/jobs/view/5" ∧
    parseURLPath "/jobs/view/5#frag" = some "/jobs/view/5" ∧
    ExtractJobID "https://www.linkedin.com/jobs/view/5?refId=abc" =
      ExtractJobID "/jobs/view/5#frag" :=
  ⟨by decide, by decide,
    extractJobID_path_only "https://www.linkedin.com/jobs/view/5?refId=abc"
      "/jobs/view/5#frag" "/jobs/view/5" "/jobs/view/5"
      (by decide) (by decide) rfl⟩

/-- Claim C4: ChooseValue computes exactly the 10-rule priority cascade of
the spec, first match winning with case-insensitive substring matching; in
particular a label containing both experience and year with input type
number resolves through the experience rule (rule 6), not the numeric-type
default. -/
theorem chooseValue_matches_spec_cascade :
    (∀ (labelText inputType : String) (p : LinkedInProfile)
        (fb : Option LLMFallback),
      ChooseValue labelText inputType p fb = resolveSpec labelText inputType p fb) ∧
    (∀ (p : LinkedInProfile) (fb : Option LLMFallback),
      ChooseValue "Years of relevant experience" "number" p fb =
        itoa p.YearsExperience) := by
  constructor
  · intro labelText inputType p fb
    unfold ChooseValue resolveSpec
    simp only [firstMatch]
    split_ifs <;> rfl
  · intro p fb
    rfl

/-- Claim C7 counterexample: on a profile whose phone number is the empty
string, a phone-keyword label makes ChooseValue return the empty string,
so ChooseValue does not always return a non-empty string. -/
theorem chooseValue_empty_phone_cex :
    ChooseValue "Phone" "text" phonelessProfile none = "" := by decide

/-- Claim C7 amended: whenever the profile string fields that the cascade
can return verbatim (phone number, state, profile URL) are non-empty,
ChooseValue never returns the empty string; every other branch returns a
literal, a comma-joined pair, a trimmed non-empty fallback answer, or a
stringified integer, all non-empty. -/
theorem chooseValue_nonempty (labelText inputType : String)
    (p : LinkedInProfile) (fb : Option LLMFallback)
    (hp : p.PhoneNumber ≠ "") (hs : p.UserState ≠ "") (hu : p.ProfileURL ≠ "") :
    ChooseValue labelText inputType p fb ≠ "" := by
  unfold ChooseValue
  dsimp only
  split_ifs with h1 h2 h3 h4 h5 h6 h7 h8
  · exact hp
  · exact append_comma_ne_empty _ _
  · decide
  · exact hs
  · exact itoa_ne_empty _
  · exact itoa_ne_empty _
  · exact hu
  · exact itoa_ne_empty _
  · cases fb with
    | none => exact itoa_ne_empty _
    | some f =>
      dsimp only
      cases hfa : f labelText inputType with
      | none => exact itoa_ne_empty _
      | some ans =>
        dsimp only
        split_ifs with hne
        · exact hne
        · exact itoa_ne_empty _

/-- Witness for the amended C7 at a concrete profile with non-empty phone
number, state and profile URL. -/
theorem chooseValue_nonempty_witness :
    ChooseValue "Expected salary" "text" wProf none ≠ "" :=
  chooseValue_nonempty "Expected salary" "text" wProf none
    (by decide) (by decide) (by decide)

/-- Claim C9: ChooseValue is deterministic: with the fallback absent, two
invocations on identical inputs agree trivially, and with the fallback
fixed to any two pointwise-equal pure functions the results agree. -/
theorem chooseValue_deterministic :
    (∀ (labelText inputType : String) (p : LinkedInProfile),
      ChooseValue labelText inputType p none =
        ChooseValue labelText inputType p none) ∧
    (∀ (labelText inputType : String) (p : LinkedInProfile)
        (f g : LLMFallback), (∀ a b, f a b = g a b) →
      ChooseValue labelText inputType p (some f) =
        ChooseValue labelText inputType p (some g)) := by
  refine ⟨fun _ _ _ => rfl, fun l t p f g h => ?_⟩
  have hfg : f = g := funext fun a => funext fun b => h a b
  rw [hfg]

/-- Witness for C9 with a concrete pure fallback. -/
theorem chooseValue_deterministic_witness :
    ChooseValue "Willing to relocate" "text" wProf (some fun a _ => some a) =
      ChooseValue "Willing to relocate" "text" wProf (some fun a _ => some a) :=
  chooseValue_deterministic.2 "Willing to relocate" "text" wProf
    (fun a _ => some a) (fun a _ => some a) (fun _ _ => rfl)

lemma innerScan_no_submit {σ : Type} (env : StepEnv σ)
    (h : ∀ st, env.isPresent st WizardButton.submit = false ∨
      (env.click st WizardButton.submit).2 = false) :
    ∀ (l : List WizardButton) (s : σ), (innerScan env l s).2.1 = false := by
  intro l
  induction l with
  | nil => intro s; rfl
  | cons b rest ih =>
    intro s
    simp only [innerScan]
    split_ifs with hg hsub hnext
    · exfalso
      obtain ⟨hok, hb⟩ := hsub
      subst hb
      rw [Bool.and_eq_true] at hg
      rcases h s with hP | hC
      · rw [hg.1] at hP
        exact Bool.noConfusion hP
      · rw [hC] at hok
        exact Bool.noConfusion hok
    · rfl
    · exact ih _
    · exact ih _

lemma wizardLoop_no_submit {σ : Type} (env : StepEnv σ)
    (h : ∀ st, env.isPresent st WizardButton.submit = false ∨
      (env.click st WizardButton.submit).2 = false) :
    ∀ (fuel : Nat) (s : σ),
      (wizardLoop env fuel s).2.1 = false ∧ (wizardLoop env fuel s).2.2.1 ≤ fuel := by
  intro fuel
  induction fuel with
  | zero => intro s; exact ⟨rfl, Nat.le_refl 0⟩
  | succ f ih =>
    intro s
    have hin := innerScan_no_submit env h wizardButtons (handleInline env s)
    constructor
    · simp only [wizardLoop]
      simp [hin, (ih _).1]
    · simp only [wizardLoop]
      simp [hin]
      have h2 := (ih ((innerScan env wizardButtons (handleInline env s)).1)).2
      omega

/-- Claim C3: if the submit locator is never simultaneously present and
successfully clickable, the wizard loop runs at most 15 outer iterations
and FillOutEasyApplyForm returns submitted false with a nil error;
exhaustion is not reported as an error. -/
theorem wizard_exhaustion {σ : Type} (env : StepEnv σ) (s : σ)
    (h : ∀ st, env.isPresent st WizardButton.submit = false ∨
      (env.click st WizardButton.submit).2 = false) :
    FillOutEasyApplyForm env s = (false, none) ∧ wizardIterations env s ≤ 15 := by
  obtain ⟨h1, h2⟩ := wizardLoop_no_submit env h 15 s
  refine ⟨?_, h2⟩
  unfold FillOutEasyApplyForm
  rw [h1]

/-- Witness for C3: the environment in which nothing is ever present. -/
theorem wizard_exhaustion_witness :
    FillOutEasyApplyForm trivEnv () = (false, none) ∧
      wizardIterations trivEnv () ≤ 15 :=
  wizard_exhaustion trivEnv () (fun _ => Or.inl rfl)

lemma innerScan_attempt_no_error {σ : Type} (env : StepEnv σ) :
    ∀ (l : List WizardButton) (s st : σ) (b : WizardButton),
      WizardEvent.attempt st b ∈ (innerScan env l s).2.2 →
      env.errorShowing st = false := by
  intro l
  induction l with
  | nil =>
    intro s st b hmem
    simp [innerScan] at hmem
  | cons c rest ih =>
    intro s st b hmem
    simp only [innerScan] at hmem
    split_ifs at hmem with hg hsub hnext
    · simp only [List.mem_singleton, WizardEvent.attempt.injEq] at hmem
      obtain ⟨hst, _⟩ := hmem
      subst hst
      rw [Bool.and_eq_true] at hg
      simpa using hg.2
    · simp only [List.mem_singleton, WizardEvent.attempt.injEq] at hmem
      obtain ⟨hst, _⟩ := hmem
      subst hst
      rw [Bool.and_eq_true] at hg
      simpa using hg.2
    · simp only [List.mem_cons] at hmem
      rcases hmem with h1 | h1 | h1
      · rw [WizardEvent.attempt.injEq] at h1
        obtain ⟨hst, _⟩ := h1
        subst hst
        rw [Bool.and_eq_true] at hg
        simpa using hg.2
      · exact absurd h1 (by simp)
      · exact ih _ _ _ h1
    · simp only [List.mem_cons] at hmem
      rcases hmem with h1 | h1
      · exact absurd h1 (by simp)
      · exact ih _ _ _ h1

lemma wizardLoop_trace_facts {σ : Type} (env : StepEnv σ) :
    ∀ (fuel : Nat) (s : σ) (tr : List (WizardEvent σ)),
      tr ∈ (wizardLoop env fuel s).2.2.2 →
      (∃ s0 rest, tr = WizardEvent.errorPass s0 :: rest) ∧
      (∀ st b, WizardEvent.attempt st b ∈ tr → env.errorShowing st = false) := by
  intro fuel
  induction fuel with
  | zero => intro s tr htr; simp [wizardLoop] at htr
  | succ f ih =>
    intro s tr htr
    simp only [wizardLoop] at htr
    by_cases hsub : (innerScan env wizardButtons (handleInline env s)).2.1 = true
    · simp only [hsub, if_true, List.mem_singleton] at htr
      subst htr
      refine ⟨⟨s, _, rfl⟩, ?_⟩
      intro st b hmem
      simp only [List.mem_cons] at hmem
      rcases hmem with h1 | h1
      · exact absurd h1 (by simp)
      · exact innerScan_attempt_no_error env wizardButtons _ _ _ h1
    · rw [Bool.not_eq_true] at hsub
      simp only [hsub, Bool.false_eq_true, if_false, List.mem_cons] at htr
      rcases htr with h1 | h1
      · subst h1
        refine ⟨⟨s, _, rfl⟩, ?_⟩
        intro st b hmem
        simp only [List.mem_cons] at hmem
        rcases hmem with h2 | h2
        · exact absurd h2 (by simp)
        · exact innerScan_attempt_no_error env wizardButtons _ _ _ h2
      · exact ih _ _ h1

/-- Claim C5: in every outer iteration of the wizard loop, the
error-handling pass runs before any action is attempted (each iteration
trace begins with an error-pass event), and every click attempt happens at
a page state where the inline error marker is absent. -/
theorem wizard_error_pass_first {σ : Type} (env : StepEnv σ) (s : σ)
    (tr : List (WizardEvent σ)) (htr : tr ∈ wizardTraces env s) :
    (∃ s0 rest, tr = WizardEvent.errorPass s0 :: rest) ∧
    (∀ st b, WizardEvent.attempt st b ∈ tr → env.errorShowing st = false) :=
  wizardLoop_trace_facts env 15 s tr htr

/-- Witness for C5: the first iteration trace of the empty environment. -/
theorem wizard_error_pass_first_witness :
    (∃ s0 rest, List.replicate 5 (WizardEvent.errorPass ()) =
      WizardEvent.errorPass s0 :: rest) ∧
    (∀ st b, WizardEvent.attempt st b ∈ List.replicate 5 (WizardEvent.errorPass ()) →
      trivEnv.errorShowing st = false) :=
  wizard_error_pass_first trivEnv () (List.replicate 5 (WizardEvent.errorPass ()))
    (by decide)

lemma wizardLoop_succ {σ : Type} (env : StepEnv σ) (n : Nat) (s : σ) :
    wizardLoop env (n + 1) s =
      if (innerScan env wizardButtons (handleInline env s)).2.1 then
        ((innerScan env wizardButtons (handleInline env s)).1, true, 1,
          [WizardEvent.errorPass s :: (innerScan env wizardButtons (handleInline env s)).2.2])
      else
        ((wizardLoop env n (innerScan env wizardButtons (handleInline env s)).1).1,
         (wizardLoop env n (innerScan env wizardButtons (handleInline env s)).1).2.1,
         (wizardLoop env n (innerScan env wizardButtons (handleInline env s)).1).2.2.1 + 1,
         (WizardEvent.errorPass s :: (innerScan env wizardButtons (handleInline env s)).2.2) ::
           (wizardLoop env n (innerScan env wizardButtons (handleInline env s)).1).2.2.2) := by
  rfl

/-- Claim C8: in a scripted environment with no inline errors where the
advance action is actionable and succeeds from phase 0, then review from
phase 1, then submit from phase 2, FillOutEasyApplyForm returns submitted
true within at most 3 outer iterations. -/
theorem wizard_success_path {σ : Type} (env : StepEnv σ) (phase : σ → Nat) (s : σ)
    (h0 : phase s = 0)
    (hne : ∀ st, env.errorShowing st = false)
    (hp0 : ∀ st, phase st = 0 →
      env.isPresent st WizardButton.next = true ∧
      (env.click st WizardButton.next).2 = true ∧
      phase (env.click st WizardButton.next).1 = 1)
    (hp1 : ∀ st, phase st = 1 →
      env.isPresent st WizardButton.next = false ∧
      env.isPresent st WizardButton.review = true ∧
      (env.click st WizardButton.review).2 = true ∧
      phase (env.click st WizardButton.review).1 = 2)
    (hp2 : ∀ st, phase st = 2 →
      env.isPresent st WizardButton.follow = false ∧
      env.isPresent st WizardButton.submit = true ∧
      (env.click st WizardButton.submit).2 = true) :
    (FillOutEasyApplyForm env s).1 = true ∧ wizardIterations env s ≤ 3 := by
  have hid : ∀ st, handleInline env st = st := by
    intro st; simp [handleInline, hne]
  obtain ⟨hP0, hC0, hph1⟩ := hp0 s h0
  obtain ⟨hN1, hR1, hC1, hph2⟩ := hp1 _ hph1
  obtain ⟨hF2, hS2, hC2⟩ := hp2 _ hph2
  have i0 : innerScan env wizardButtons s =
      ((env.click s WizardButton.next).1, false,
        [WizardEvent.attempt s WizardButton.next]) := by
    simp [innerScan, wizardButtons, hP0, hC0, hne]
  have i1 : (innerScan env wizardButtons (env.click s WizardButton.next).1).2.1 = true := by
    simp [innerScan, wizardButtons, hN1, hR1, hC1, hne, hid, hF2, hS2, hC2]
  have e2a : (wizardLoop env 14 (env.click s WizardButton.next).1).2.1 = true := by
    show (wizardLoop env (13 + 1) (env.click s WizardButton.next).1).2.1 = true
    rw [wizardLoop_succ]
    simp only [hid]
    rw [i1]
    simp
  have e2b : (wizardLoop env 14 (env.click s WizardButton.next).1).2.2.1 = 1 := by
    show (wizardLoop env (13 + 1) (env.click s WizardButton.next).1).2.2.1 = 1
    rw [wizardLoop_succ]
    simp only [hid]
    rw [i1]
    simp
  have e1a : (wizardLoop env 15 s).2.1 = true := by
    show (wizardLoop env (14 + 1) s).2.1 = true
    rw [wizardLoop_succ]
    simp only [hid]
    rw [i0]
    simp [e2a]
  have e1b : (wizardLoop env 15 s).2.2.1 = 2 := by
    show (wizardLoop env (14 + 1) s).2.2.1 = 2
    rw [wizardLoop_succ]
    simp only [hid]
    rw [i0]
    simp [e2b]
  constructor
  · exact e1a
  · unfold wizardIterations
    rw [e1b]
    omega

/-- Witness for C8: the four-state scripted environment. -/
theorem wizard_success_path_witness :
    (FillOutEasyApplyForm demoEnv 0).1 = true ∧ wizardIterations demoEnv 0 ≤ 3 :=
  wizard_success_path demoEnv Fin.val 0 (by decide) (fun _ => rfl)
    (by decide) (by decide) (by decide)

lemma campaignState_jobsPerPage_zero (env : Nat → List String) :
    ∀ (n : Nat) (st : CampaignState),
      campaignState env n = some st → st.jobsPerPage = 0 := by
  intro n
  induction n with
  | zero =>
    intro st h
    simp only [campaignState, Option.some.injEq] at h
    rw [← h]
  | succ m ih =>
    intro st h
    simp only [campaignState, Option.bind_eq_some] at h
    obtain ⟨prev, hprev, hstep⟩ := h
    simp only [startApplyingStep, Option.map_eq_some'] at hstep
    obtain ⟨ids, _, hst⟩ := hstep
    rw [← hst]
    exact ih prev hprev

/-- Claim C6 (the code evaluated at its failing input): the StartApplying
loop never changes jobsPerPage, so the first three discovery calls all use
the result-page offset 0: the offset used is never strictly larger than
the one of the previous call. -/
theorem campaign_offset_not_increasing :
    campaignOffset (fun _ => ["/jobs/view/100"]) 0 = some 0 ∧
    campaignOffset (fun _ => ["/jobs/view/100"]) 1 = some 0 ∧
    campaignOffset (fun _ => ["/jobs/view/100"]) 2 = some 0 := by
  refine ⟨by decide, by decide, by decide⟩

end FoxyApply
